import Mathlib

/-!
Shallow embedding of the DICE incremental engine core
(`dice/src/impls/incremental/mod.rs`) and the legacy type-indexed engine
registry (`dice/src/legacy/map.rs`).

Each engine procedure is embedded as a pure function taking, besides its
ordinary arguments, an explicit environment that fixes the outcomes of its
external collaborators (the state actor's lookup reply, the user evaluator's
result, whether disabling cancellation succeeds, the dependency results in
completion order, the state actor's commit reply).  Every procedure returns
its value together with a trace of the observable actions it performed, in
program order; the claims are settled as statements about these values and
traces.
-/

namespace Dice

/-! Section: Basic data model -/

/-- Rust `DiceKey`: dense interned id for a typed user key (`impls/key.rs`). -/
abbrev DiceKey := Nat

/-- Rust `VersionNumber`: monotone version counter (`versions.rs`). -/
abbrev VersionNumber := Nat

/-- Rust `VersionEpoch`: nonce distinguishing re-openings of a version
(`impls/core/versions.rs`). -/
abbrev VersionEpoch := Nat

/-- Modelled from the spec: `VersionRanges` is a set of ordered, disjoint,
half-open intervals over `Version` supporting intersection and an emptiness
test (its source is not part of the covered slice).  It is modelled
extensionally as the finite list of verified versions; only `intersect` and
`isEmpty` are consumed by the engine code under verification. -/
abbrev VersionRanges := List VersionNumber

/-- Modelled from the spec: intersection of two `VersionRanges`. -/
def VersionRanges.intersect (a b : VersionRanges) : VersionRanges :=
  a.filter (fun x => b.contains x)

/-- Modelled from the spec: `CellHistory` carries the verified ranges of a
graph entry; the engine only constructs `CellHistory::verified(v)` and reads
verified ranges, so it is modelled as the list of verified versions. -/
abbrev CellHistory := List VersionNumber

/-- Rust `CellHistory::verified(v)`: a history verified only at `v`. -/
def CellHistory.verified (v : VersionNumber) : CellHistory := [v]

/-- Rust `MaybeValidDiceValue` (`impls/value.rs`): a user value together with its
validity; transient values are invalid. -/
structure MaybeValidDiceValue where
  value : Nat
  valid : Bool
deriving DecidableEq, Repr

/-- Rust `MaybeValidDiceValue::into_valid_value`: `Ok` when valid, otherwise the
value itself is returned in the `Err` payload. -/
def MaybeValidDiceValue.into_valid_value (v : MaybeValidDiceValue) :
    Except MaybeValidDiceValue MaybeValidDiceValue :=
  if v.valid then Except.ok v else Except.error v

/-- Rust `DiceComputedValue`: the `{value, history}` pair returned to callers. -/
structure DiceComputedValue where
  value : MaybeValidDiceValue
  history : CellHistory
deriving DecidableEq, Repr

/-- Rust `CancellableResult<T> = Result<T, Cancelled>` (`result.rs`). -/
inductive CancellableResult (α : Type) where
  | ok (a : α)
  | cancelled
deriving DecidableEq, Repr

def CancellableResult.map {α β : Type} (f : α → β) :
    CancellableResult α → CancellableResult β
  | .ok a => .ok (f a)
  | .cancelled => .cancelled

/-- Rust `StorageType` chosen by the evaluator for the committed entry. -/
inductive StorageType where
  | normal
  | injected
deriving DecidableEq, Repr

/-! Section: Observable actions

The engine's side effects, recorded in program order: task-handle state
changes, event dispatches, the evaluator invocation, the cancellation-guard
acquisition attempt, activation reports and state-actor requests. -/

inductive Action where
  | lookupKey (k : DiceKey) (v : VersionNumber)
  | checkingDeps
  | checkDepsStarted (k : DiceKey)
  | checkDepsFinished (k : DiceKey)
  | computing
  | eventStarted (k : DiceKey)
  | eventFinished (k : DiceKey)
  | evaluate (k : DiceKey)
  | tryDisableCancellation (success : Bool)
  | reportActivation (k : DiceKey) (reused : Bool)
  | updateComputed (k : DiceKey) (v : VersionNumber) (epoch : VersionEpoch)
      (value : MaybeValidDiceValue) (storage : StorageType) (deps : List DiceKey)
  | awaitTermination
  | handleFinished (res : DiceComputedValue)
deriving DecidableEq, Repr

def Action.isUpdateComputed : Action → Bool
  | .updateComputed .. => true
  | _ => false

def Action.isEvaluate : Action → Bool
  | .evaluate _ => true
  | _ => false

def Action.isGuardSuccess : Action → Bool
  | .tryDisableCancellation true => true
  | _ => false

/-- Scans a trace left to right tracking whether a successful
`try_to_disable_cancellation` has occurred; `true` iff every
`UpdateComputed` in the trace is preceded by one (given the initial
guard state `g`). -/
def guardHeldBeforeUpdates (g : Bool) : List Action → Bool
  | [] => true
  | Action.tryDisableCancellation true :: rest => guardHeldBeforeUpdates true rest
  | Action.updateComputed _ _ _ _ _ _ :: rest => g && guardHeldBeforeUpdates g rest
  | _ :: rest => guardHeldBeforeUpdates g rest

/-! Section: Evaluator results and environments -/

/-- The successful payload of `AsyncEvaluator::evaluate`
(value, deps in first-read order, storage choice). -/
structure KeyEvaluationResult where
  value : MaybeValidDiceValue
  deps : List DiceKey
  storage : StorageType
deriving DecidableEq, Repr

/-- Rust `VersionedGraphResultMismatch`: previous value, its verified ranges and
the recorded deps to validate (`impls/core/graph/types.rs`). -/
structure VersionedGraphResultMismatch where
  entry : MaybeValidDiceValue
  verifiedVersions : VersionRanges
  depsToValidate : List DiceKey
deriving DecidableEq, Repr

/-- Rust `VersionedGraphResult`: outcome of the state lookup. -/
inductive VersionedGraphResult where
  | matchEntry (entry : DiceComputedValue)
  | checkDeps (mismatch : VersionedGraphResultMismatch)
  | compute
deriving DecidableEq, Repr

/-- Rust `DidDepsChange` (`impls/incremental/mod.rs`). -/
inductive DidDepsChange where
  | changed
  | noChange (deps : List DiceKey)
  | noDeps
deriving DecidableEq, Repr

/-- Environment resolving the external interactions of
`IncrementalEngine::compute`: the evaluator's outcome, whether
`try_to_disable_cancellation` succeeds, and the state actor's reply to
`UpdateComputed`. -/
structure ComputeEnv where
  evalResult : CancellableResult KeyEvaluationResult
  disableCancellationSuccess : Bool
  stateReply : CancellableResult DiceComputedValue
deriving DecidableEq, Repr

/-- Environment resolving the external interactions of
`eval_entry_versioned`: the lookup reply, the dep revalidation results in
completion order, the storage type reported by the evaluator for the key,
the nested compute environment and the state reply on the dep-reuse path. -/
structure EvalEntryEnv where
  lookupResult : VersionedGraphResult
  depResults : List (CancellableResult VersionRanges)
  storageType : StorageType
  computeEnv : ComputeEnv
  noChangeStateReply : CancellableResult DiceComputedValue
deriving DecidableEq, Repr

/-! Section: The incremental engine -/

/-- Rust `IncrementalEngine::compute` (lines 303-370): enter the `Computing`
state, dispatch `started`, run the evaluator, attempt to disable
cancellation (abandoning with `Cancelled` on failure), report the
activation, then either commit via `UpdateComputed` and await the canonical
reply (valid value) or return a synthetic value verified only at `v`
(transient value).  The `finished` event is dispatched on every exit path
(the `scopeguard`). -/
def IncrementalEngine.compute (k : DiceKey) (v : VersionNumber)
    (epoch : VersionEpoch) (env : ComputeEnv) :
    CancellableResult (DiceComputedValue × Unit) × List Action :=
  let pre := [Action.computing, Action.eventStarted k, Action.evaluate k]
  match env.evalResult with
  | .cancelled => (.cancelled, pre ++ [Action.eventFinished k])
  | .ok eval_result =>
      let guardAct := Action.tryDisableCancellation env.disableCancellationSuccess
      if env.disableCancellationSuccess then
        let activationAct := Action.reportActivation k false
        match eval_result.value.into_valid_value with
        | Except.ok value =>
            (env.stateReply.map (fun res => (res, ())),
             pre ++ [guardAct, activationAct,
                     Action.updateComputed k v epoch value eval_result.storage
                       eval_result.deps,
                     Action.eventFinished k])
        | Except.error value =>
            (.ok (⟨value, CellHistory.verified v⟩, ()),
             pre ++ [guardAct, activationAct, Action.eventFinished k])
      else
        (.cancelled, pre ++ [guardAct, Action.eventFinished k])

/-- The fold in `compute_whether_dependencies_changed` (lines 409-427):
consume the dep results in completion order, intersecting each dep's
verified ranges into the running intersection; return `Changed` at the
first empty intersection, `Cancelled` at the first cancelled dep, and
`NoChange(deps)` when all results are consumed. -/
def IncrementalEngine.check_dep_results (deps : List DiceKey)
    (verified : VersionRanges) :
    List (CancellableResult VersionRanges) → CancellableResult DidDepsChange
  | [] => .ok (.noChange deps)
  | .ok ranges :: rest =>
      let vv := VersionRanges.intersect verified ranges
      if vv.isEmpty then .ok .changed
      else IncrementalEngine.check_dep_results deps vv rest
  | .cancelled :: _ => .cancelled

/-- Rust `compute_whether_dependencies_changed` (lines 379-428): `NoDeps` on an
empty dep list, otherwise the fold over the dep results in completion
order. -/
def IncrementalEngine.compute_whether_dependencies_changed
    (verified : VersionRanges) (deps : List DiceKey)
    (depResults : List (CancellableResult VersionRanges)) :
    CancellableResult DidDepsChange :=
  if deps.isEmpty then .ok .noDeps
  else IncrementalEngine.check_dep_results deps verified depResults

/-- Rust `eval_entry_versioned` (lines 201-301): look the key up; on `Match`
return the cached entry with no guard; on `Compute` run `compute`; on
`CheckDeps` revalidate the deps, then either run `compute` (`Changed` or
`NoDeps`), or (`NoChange`) report a `Reused` activation, commit the prior
value via `UpdateComputed` with no cancellation guard, and return the state
reply with no guard. -/
def IncrementalEngine.eval_entry_versioned (k : DiceKey) (v : VersionNumber)
    (epoch : VersionEpoch) (env : EvalEntryEnv) :
    CancellableResult (DiceComputedValue × Option Unit) × List Action :=
  let lookupAct := Action.lookupKey k v
  match env.lookupResult with
  | .matchEntry entry => (.ok (entry, none), [lookupAct])
  | .compute =>
      let r := IncrementalEngine.compute k v epoch env.computeEnv
      (r.1.map (fun p => (p.1, some p.2)), lookupAct :: r.2)
  | .checkDeps mismatch =>
      let acts := [lookupAct, Action.checkingDeps, Action.checkDepsStarted k]
      match IncrementalEngine.compute_whether_dependencies_changed
          mismatch.verifiedVersions mismatch.depsToValidate env.depResults with
      | .cancelled => (.cancelled, acts ++ [Action.checkDepsFinished k])
      | .ok .changed =>
          let r := IncrementalEngine.compute k v epoch env.computeEnv
          (r.1.map (fun p => (p.1, some p.2)),
           acts ++ (Action.checkDepsFinished k :: r.2))
      | .ok .noDeps =>
          let r := IncrementalEngine.compute k v epoch env.computeEnv
          (r.1.map (fun p => (p.1, some p.2)),
           acts ++ (Action.checkDepsFinished k :: r.2))
      | .ok (.noChange deps) =>
          (env.noChangeStateReply.map (fun res => (res, none)),
           acts ++ [Action.checkDepsFinished k,
                    Action.reportActivation k true,
                    Action.updateComputed k v epoch mismatch.entry
                      env.storageType deps])

/-! Section: Task spawning -/

/-- Rust `TerminationStatus` of a previously cancelled task. -/
inductive TerminationStatus where
  | finished
  | cancelled
deriving DecidableEq, Repr

/-- Rust `PreviouslyCancelledTask`: the predecessor's termination signal and its
finished value (`get_finished_value`, `Ok` unless it was actually
cancelled). -/
structure PreviouslyCancelledTask where
  termination : TerminationStatus
  finishedValue : CancellableResult DiceComputedValue
deriving DecidableEq, Repr

/-- Outcome of a spawned task body: the handle is either `finished` with a
value or dropped, leaving the task terminated. -/
inductive TaskOutcome where
  | finished (res : DiceComputedValue)
  | terminated
deriving DecidableEq, Repr

/-- The re-evaluation continuation of the spawned task body (lines
126-143): run `eval_entry_versioned` and finish the handle with the result,
or drop the handle on cancellation. -/
def IncrementalEngine.continue_eval (k : DiceKey) (v : VersionNumber)
    (epoch : VersionEpoch) (env : EvalEntryEnv) (pre : List Action) :
    TaskOutcome × List Action :=
  let r := IncrementalEngine.eval_entry_versioned k v epoch env
  match r.1 with
  | .ok p => (.finished p.1, pre ++ r.2 ++ [Action.handleFinished p.1])
  | .cancelled => (.terminated, pre ++ r.2)

/-- The body of `spawn_for_key` (lines 88-148): when a previously cancelled
task is supplied, await its termination first; if it actually `Finished`
with a non-cancelled value, finish with that value; otherwise fall through
to re-evaluation via `eval_entry_versioned`. -/
def IncrementalEngine.spawn_for_key (k : DiceKey) (v : VersionNumber)
    (epoch : VersionEpoch)
    (previously_cancelled_task : Option PreviouslyCancelledTask)
    (env : EvalEntryEnv) : TaskOutcome × List Action :=
  match previously_cancelled_task with
  | some previous =>
      match previous.termination with
      | .finished =>
          match previous.finishedValue with
          | .ok res =>
              (.finished res, [Action.awaitTermination, Action.handleFinished res])
          | .cancelled =>
              IncrementalEngine.continue_eval k v epoch env [Action.awaitTermination]
      | .cancelled =>
          IncrementalEngine.continue_eval k v epoch env [Action.awaitTermination]
  | none => IncrementalEngine.continue_eval k v epoch env []

/-! Section: Projection path -/

/-- The successful payload of `SyncEvaluator::evaluate`. -/
structure SyncEvalResult where
  value : MaybeValidDiceValue
  deps : List DiceKey
  storage : StorageType
deriving DecidableEq, Repr

/-- Rust `project_for_key` (lines 155-199): under `promise.get_or_complete`, if
the promise already holds a result return it; otherwise run the producer:
dispatch `started`, evaluate synchronously, fire-and-forget an
`UpdateComputed` when the value is valid (the reply channel is dropped),
dispatch `finished`, and return the evaluated value with a history verified
only at `v`. -/
def IncrementalEngine.project_for_key (k : DiceKey) (v : VersionNumber)
    (epoch : VersionEpoch) (promiseResult : Option DiceComputedValue)
    (evalResult : SyncEvalResult) :
    CancellableResult DiceComputedValue × List Action :=
  match promiseResult with
  | some res => (.ok res, [])
  | none =>
      let updateActs :=
        match evalResult.value.into_valid_value with
        | Except.ok value =>
            [Action.updateComputed k v epoch value evalResult.storage
              evalResult.deps]
        | Except.error _ => []
      (.ok ⟨evalResult.value, CellHistory.verified v⟩,
       [Action.eventStarted k, Action.evaluate k] ++ updateActs
         ++ [Action.eventFinished k])

/-! Section: The legacy engine registry (`legacy/map.rs`)

`DiceMap` holds a type-indexed map (`anymap`) from a key type `S` to the
`Arc<IncrementalEngine<S>>` owning its cache, plus an ordered list of
type-erased engines.  Key types are modelled by their type ids (`Nat`) and
engine instances by an instance id, so that object identity (`Arc`
identity) is observable as equality of instance ids. -/

/-- A (type-erased view of an) `Arc<IncrementalEngine<S>>` instance. -/
structure EngineInst where
  typeId : Nat
  instId : Nat
deriving DecidableEq, Repr

/-- Rust `DiceMap`: the `typed` anymap keyed by the key type's type id, and the
`erased` list of engines. -/
structure DiceMap where
  typed : List (Nat × EngineInst)
  erased : List EngineInst
deriving DecidableEq, Repr

/-- Rust `DiceMap::new`. -/
def DiceMap.new : DiceMap := ⟨[], []⟩

/-- Rust `DiceMap::find_cache_opt::<S>`: look the type id up in the typed map. -/
def DiceMap.find_cache_opt (m : DiceMap) (s : Nat) : Option EngineInst :=
  (m.typed.find? (fun p => p.1 == s)).map Prod.snd

/-- Rust `DiceMap::find_cache::<S>` (lines 47-63): return the registered engine
if present; otherwise invoke `new`, insert the result into the typed map
and push it onto the erased list.  The returned `Bool` records whether the
`new` closure was invoked. -/
def DiceMap.find_cache (m : DiceMap) (s : Nat) (mk : Unit → EngineInst) :
    EngineInst × DiceMap × Bool :=
  match m.typed.find? (fun p => p.1 == s) with
  | some p => (p.2, m, false)
  | none =>
      let cache := mk ()
      (cache, ⟨m.typed ++ [(s, cache)], m.erased ++ [cache]⟩, true)

/-- Rust `DiceMap::engines`. -/
def DiceMap.engines (m : DiceMap) : List EngineInst := m.erased

/-! Section: Trace observations -/

/-- The trace contains an `UpdateComputed` state request. -/
def hasUpdateComputed (tr : List Action) : Bool := tr.any Action.isUpdateComputed

/-- The trace contains an invocation of the user evaluator. -/
def hasEvaluate (tr : List Action) : Bool := tr.any Action.isEvaluate

/-- The trace contains a successful `try_to_disable_cancellation`. -/
def hasGuardSuccess (tr : List Action) : Bool := tr.any Action.isGuardSuccess

/-- The early-exit scan of the dep revalidation fold: `true` iff some
running intersection of `verified` with a prefix of the dep ranges is
empty. -/
def intersectionEverEmpty (verified : VersionRanges) : List VersionRanges → Bool
  | [] => false
  | r :: rest =>
      let vv := VersionRanges.intersect verified r
      if vv.isEmpty then true else intersectionEverEmpty vv rest

/-! Section: Theorems -/

/-- C8: when the state lookup returns `Match(entry)`, `eval_entry_versioned`
returns the cached entry paired with no cancellation guard, without
invoking the evaluator and without sending any `UpdateComputed` request. -/
theorem eval_entry_match_returns_cached (k v epoch : Nat) (env : EvalEntryEnv)
    (entry : DiceComputedValue) (h : env.lookupResult = .matchEntry entry) :
    (IncrementalEngine.eval_entry_versioned k v epoch env).1 =
      .ok (entry, none) ∧
    hasEvaluate (IncrementalEngine.eval_entry_versioned k v epoch env).2 = false ∧
    hasUpdateComputed (IncrementalEngine.eval_entry_versioned k v epoch env).2
      = false := by
  simp [IncrementalEngine.eval_entry_versioned, h, hasEvaluate, hasUpdateComputed,
    Action.isEvaluate, Action.isUpdateComputed]

theorem eval_entry_match_returns_cached_witness :
    (IncrementalEngine.eval_entry_versioned 1 2 3
      ⟨.matchEntry ⟨⟨5, true⟩, [2]⟩, [], .normal,
        ⟨.cancelled, false, .cancelled⟩, .cancelled⟩).1 =
      .ok (⟨⟨5, true⟩, [2]⟩, none) ∧
    hasEvaluate (IncrementalEngine.eval_entry_versioned 1 2 3
      ⟨.matchEntry ⟨⟨5, true⟩, [2]⟩, [], .normal,
        ⟨.cancelled, false, .cancelled⟩, .cancelled⟩).2 = false ∧
    hasUpdateComputed (IncrementalEngine.eval_entry_versioned 1 2 3
      ⟨.matchEntry ⟨⟨5, true⟩, [2]⟩, [], .normal,
        ⟨.cancelled, false, .cancelled⟩, .cancelled⟩).2 = false :=
  eval_entry_match_returns_cached 1 2 3
    ⟨.matchEntry ⟨⟨5, true⟩, [2]⟩, [], .normal,
      ⟨.cancelled, false, .cancelled⟩, .cancelled⟩ ⟨⟨5, true⟩, [2]⟩ rfl

/-- C3: when the evaluator finishes but `try_to_disable_cancellation`
returns `None`, `compute` returns `Cancelled` and never issues an
`UpdateComputed` request, leaving the graph untouched by this task. -/
theorem compute_guard_failure_no_update (k v epoch : Nat) (env : ComputeEnv)
    (er : KeyEvaluationResult) (h1 : env.evalResult = .ok er)
    (h2 : env.disableCancellationSuccess = false) :
    (IncrementalEngine.compute k v epoch env).1 = .cancelled ∧
    hasUpdateComputed (IncrementalEngine.compute k v epoch env).2 = false := by
  simp [IncrementalEngine.compute, h1, h2, hasUpdateComputed,
    Action.isUpdateComputed]

theorem compute_guard_failure_no_update_witness :
    (IncrementalEngine.compute 0 1 2
      ⟨.ok ⟨⟨5, true⟩, [], .normal⟩, false, .cancelled⟩).1 = .cancelled ∧
    hasUpdateComputed (IncrementalEngine.compute 0 1 2
      ⟨.ok ⟨⟨5, true⟩, [], .normal⟩, false, .cancelled⟩).2 = false :=
  compute_guard_failure_no_update 0 1 2
    ⟨.ok ⟨⟨5, true⟩, [], .normal⟩, false, .cancelled⟩ ⟨⟨5, true⟩, [], .normal⟩
    rfl rfl

/-- C5: a transient (invalid) evaluation result is never committed: neither
the async `compute` path nor the synchronous projection path sends
`UpdateComputed`, and the caller receives a `ComputedValue` built from that
value with a history verified only at the current version. -/
theorem transient_value_never_committed :
    (∀ (k v epoch : Nat) (env : ComputeEnv) (er : KeyEvaluationResult),
      env.evalResult = .ok er → er.value.valid = false →
      hasUpdateComputed (IncrementalEngine.compute k v epoch env).2 = false ∧
      (env.disableCancellationSuccess = true →
        (IncrementalEngine.compute k v epoch env).1 =
          .ok (⟨er.value, CellHistory.verified v⟩, ()))) ∧
    (∀ (k v epoch : Nat) (sync : SyncEvalResult), sync.value.valid = false →
      hasUpdateComputed
        (IncrementalEngine.project_for_key k v epoch none sync).2 = false ∧
      (IncrementalEngine.project_for_key k v epoch none sync).1 =
        .ok ⟨sync.value, CellHistory.verified v⟩) := by
  constructor
  · intro k v epoch env er h1 h2
    cases hdc : env.disableCancellationSuccess <;>
      simp [IncrementalEngine.compute, h1, h2, hdc,
        MaybeValidDiceValue.into_valid_value, hasUpdateComputed,
        Action.isUpdateComputed]
  · intro k v epoch sync h
    simp [IncrementalEngine.project_for_key, MaybeValidDiceValue.into_valid_value,
      h, hasUpdateComputed, Action.isUpdateComputed]

theorem transient_value_never_committed_witness :
    (hasUpdateComputed (IncrementalEngine.compute 0 1 2
        ⟨.ok ⟨⟨9, false⟩, [], .normal⟩, true, .cancelled⟩).2 = false ∧
      (true = true →
        (IncrementalEngine.compute 0 1 2
          ⟨.ok ⟨⟨9, false⟩, [], .normal⟩, true, .cancelled⟩).1 =
          .ok (⟨⟨9, false⟩, CellHistory.verified 1⟩, ()))) ∧
    (hasUpdateComputed (IncrementalEngine.project_for_key 0 1 2 none
        ⟨⟨9, false⟩, [], .normal⟩).2 = false ∧
      (IncrementalEngine.project_for_key 0 1 2 none
        ⟨⟨9, false⟩, [], .normal⟩).1 =
        .ok ⟨⟨9, false⟩, CellHistory.verified 1⟩) := by
  constructor
  · have h := transient_value_never_committed.1 0 1 2
      ⟨.ok ⟨⟨9, false⟩, [], .normal⟩, true, .cancelled⟩ ⟨⟨9, false⟩, [], .normal⟩
      rfl rfl
    exact ⟨h.1, fun _ => h.2 rfl⟩
  · exact transient_value_never_committed.2 0 1 2 ⟨⟨9, false⟩, [], .normal⟩ rfl

/-- C9: whenever the projection producer actually runs (the promise is not
already complete), the returned value's history is exactly
`CellHistory::verified(v)` — even when the value is valid and an
`UpdateComputed` is dispatched fire-and-forget. -/
theorem project_for_key_history_verified_only (k v epoch : Nat)
    (sync : SyncEvalResult) :
    (IncrementalEngine.project_for_key k v epoch none sync).1 =
      .ok ⟨sync.value, CellHistory.verified v⟩ ∧
    (sync.value.valid = true →
      hasUpdateComputed
        (IncrementalEngine.project_for_key k v epoch none sync).2 = true) := by
  constructor
  · simp [IncrementalEngine.project_for_key]
  · intro h
    simp [IncrementalEngine.project_for_key, MaybeValidDiceValue.into_valid_value,
      h, hasUpdateComputed, Action.isUpdateComputed]

theorem project_for_key_history_verified_only_witness :
    (IncrementalEngine.project_for_key 4 7 0 none ⟨⟨3, true⟩, [], .normal⟩).1 =
      .ok ⟨⟨3, true⟩, CellHistory.verified 7⟩ ∧
    (true = true →
      hasUpdateComputed (IncrementalEngine.project_for_key 4 7 0 none
        ⟨⟨3, true⟩, [], .normal⟩).2 = true) := by
  have h := project_for_key_history_verified_only 4 7 0 ⟨⟨3, true⟩, [], .normal⟩
  exact ⟨h.1, fun _ => h.2 rfl⟩

/-- The dep-result fold, on an all-successful result list, is the
early-exit intersection scan: `Changed` iff some running intersection
empties, otherwise `NoChange` with the original dep list. -/
theorem check_dep_results_ok_eq (deps : List DiceKey) (verified : VersionRanges)
    (rs : List VersionRanges) :
    IncrementalEngine.check_dep_results deps verified
        (rs.map CancellableResult.ok) =
      (if intersectionEverEmpty verified rs then .ok .changed
       else .ok (.noChange deps)) := by
  induction rs generalizing verified with
  | nil => simp [IncrementalEngine.check_dep_results, intersectionEverEmpty]
  | cons r rest ih =>
      by_cases h : (VersionRanges.intersect verified r).isEmpty = true <;>
        simp [IncrementalEngine.check_dep_results, intersectionEverEmpty, h, ih]

/-- C4: `compute_whether_dependencies_changed` returns `NoDeps` on an empty
dep list; otherwise it folds each dep's verified ranges into a running
intersection starting from `verified_versions`, returning `Changed` exactly
when some running intersection becomes empty and `NoChange` carrying the
original dep list otherwise. -/
theorem cwdc_fold_spec (verified : VersionRanges) (deps : List DiceKey)
    (rs : List VersionRanges) :
    (deps = [] →
      IncrementalEngine.compute_whether_dependencies_changed verified deps
        (rs.map CancellableResult.ok) = .ok .noDeps) ∧
    (deps ≠ [] →
      IncrementalEngine.compute_whether_dependencies_changed verified deps
          (rs.map CancellableResult.ok) =
        (if intersectionEverEmpty verified rs then .ok .changed
         else .ok (.noChange deps))) := by
  constructor
  · intro h
    subst h
    simp [IncrementalEngine.compute_whether_dependencies_changed]
  · intro h
    cases deps with
    | nil => exact absurd rfl h
    | cons d ds =>
        simp [IncrementalEngine.compute_whether_dependencies_changed,
          check_dep_results_ok_eq]

theorem cwdc_fold_spec_witness :
    (IncrementalEngine.compute_whether_dependencies_changed [1] []
      ([[1]].map CancellableResult.ok) = .ok .noDeps → True) ∧
    IncrementalEngine.compute_whether_dependencies_changed [1] [5]
        ([[1], []].map CancellableResult.ok) =
      (if intersectionEverEmpty [1] [[1], []] then .ok .changed
       else .ok (.noChange [5])) :=
  ⟨fun _ => trivial,
    (cwdc_fold_spec [1] [5] [[1], []]).2 (by decide)⟩

/-- C7 counterexample: with deps `[7, 8]` and completion-order results
`[Ok(∅-intersecting), Cancelled]`, the first result empties the running
intersection and the fold returns `Changed`, even though a dep's
computation resolved to `Cancelled`; the function does not return
`Cancelled`. -/
theorem cwdc_cancelled_dep_counterexample :
    IncrementalEngine.compute_whether_dependencies_changed [1] [7, 8]
        [CancellableResult.ok [], CancellableResult.cancelled] = .ok .changed ∧
    CancellableResult.cancelled ∈
      [CancellableResult.ok ([] : VersionRanges), CancellableResult.cancelled] ∧
    IncrementalEngine.compute_whether_dependencies_changed [1] [7, 8]
        [CancellableResult.ok [], CancellableResult.cancelled] ≠ .cancelled := by
  decide

/-- Helper for C7: the dep-result fold, on a list containing a cancelled
result, returns `Cancelled` unless an earlier successful result already
emptied the running intersection, in which case `Changed`. -/
theorem check_dep_results_cancelled_mem (deps : List DiceKey)
    (verified : VersionRanges)
    (rs : List (CancellableResult VersionRanges))
    (hmem : CancellableResult.cancelled ∈ rs) :
    IncrementalEngine.check_dep_results deps verified rs = .cancelled ∨
    IncrementalEngine.check_dep_results deps verified rs = .ok .changed := by
  induction rs generalizing verified with
  | nil => simp at hmem
  | cons r rest ih =>
      cases r with
      | cancelled =>
          left
          simp [IncrementalEngine.check_dep_results]
      | ok ranges =>
          have hm : CancellableResult.cancelled ∈ rest := by
            rcases List.mem_cons.mp hmem with h | h
            · exact absurd h.symm (by simp)
            · exact h
          by_cases he : (VersionRanges.intersect verified ranges).isEmpty = true
          · right
            simp [IncrementalEngine.check_dep_results, he]
          · simpa [IncrementalEngine.check_dep_results, he] using
              ih (VersionRanges.intersect verified ranges) hm

/-- C7 amended: when some dep result in the completion sequence is
`Cancelled` (and the dep list is non-empty), the revalidation returns
either `Cancelled` or — when an earlier dep result already emptied the
running intersection — `Changed`; it never returns `NoChange` or
`NoDeps`. -/
theorem cwdc_cancelled_dep_amended (verified : VersionRanges)
    (deps : List DiceKey) (depResults : List (CancellableResult VersionRanges))
    (hdeps : deps ≠ []) (hmem : CancellableResult.cancelled ∈ depResults) :
    IncrementalEngine.compute_whether_dependencies_changed verified deps
        depResults = .cancelled ∨
    IncrementalEngine.compute_whether_dependencies_changed verified deps
        depResults = .ok .changed := by
  cases deps with
  | nil => exact absurd rfl hdeps
  | cons d ds =>
      simpa [IncrementalEngine.compute_whether_dependencies_changed] using
        check_dep_results_cancelled_mem (d :: ds) verified depResults hmem

theorem cwdc_cancelled_dep_amended_witness :
    IncrementalEngine.compute_whether_dependencies_changed [1] [7]
        [CancellableResult.cancelled] = .cancelled ∨
    IncrementalEngine.compute_whether_dependencies_changed [1] [7]
        [CancellableResult.cancelled] = .ok .changed :=
  cwdc_cancelled_dep_amended [1] [7] [CancellableResult.cancelled]
    (by decide) (by decide)

/-- C2 counterexample: on the dep-reuse (`NoChange`) path,
`eval_entry_versioned` sends an `UpdateComputed` request with no preceding
(indeed no) successful `DisableCancellationGuard` acquisition in its
trace. -/
theorem nochange_commits_without_guard_counterexample :
    hasUpdateComputed (IncrementalEngine.eval_entry_versioned 9 1 0
      ⟨.checkDeps ⟨⟨5, true⟩, [1], [7]⟩, [CancellableResult.ok [1]], .normal,
        ⟨.cancelled, false, .cancelled⟩, .ok ⟨⟨5, true⟩, [1, 2]⟩⟩).2 = true ∧
    hasGuardSuccess (IncrementalEngine.eval_entry_versioned 9 1 0
      ⟨.checkDeps ⟨⟨5, true⟩, [1], [7]⟩, [CancellableResult.ok [1]], .normal,
        ⟨.cancelled, false, .cancelled⟩, .ok ⟨⟨5, true⟩, [1, 2]⟩⟩).2 = false ∧
    guardHeldBeforeUpdates false (IncrementalEngine.eval_entry_versioned 9 1 0
      ⟨.checkDeps ⟨⟨5, true⟩, [1], [7]⟩, [CancellableResult.ok [1]], .normal,
        ⟨.cancelled, false, .cancelled⟩, .ok ⟨⟨5, true⟩, [1, 2]⟩⟩).2 = false := by
  decide

/-- C2 amended: on the fresh-evaluation path (`compute`), every
`UpdateComputed` in the trace is preceded by a successful
`DisableCancellationGuard` acquisition — either the commit happens with the
guard held or no `UpdateComputed` is issued; the dep-reuse (`NoChange`)
path of `eval_entry_versioned`, however, issues its `UpdateComputed`
without any guard acquisition. -/
theorem update_guard_discipline :
    (∀ (k v epoch : Nat) (env : ComputeEnv),
      guardHeldBeforeUpdates false
        (IncrementalEngine.compute k v epoch env).2 = true) ∧
    (∀ (k v epoch : Nat) (env : EvalEntryEnv)
      (mismatch : VersionedGraphResultMismatch) (deps : List DiceKey),
      env.lookupResult = .checkDeps mismatch →
      IncrementalEngine.compute_whether_dependencies_changed
          mismatch.verifiedVersions mismatch.depsToValidate env.depResults =
        .ok (.noChange deps) →
      hasUpdateComputed
        (IncrementalEngine.eval_entry_versioned k v epoch env).2 = true ∧
      hasGuardSuccess
        (IncrementalEngine.eval_entry_versioned k v epoch env).2 = false) := by
  constructor
  · intro k v epoch env
    rcases env with ⟨er, dc, sr⟩
    cases er with
    | cancelled => simp [IncrementalEngine.compute, guardHeldBeforeUpdates]
    | ok r =>
        cases dc with
        | false => simp [IncrementalEngine.compute, guardHeldBeforeUpdates]
        | true =>
            by_cases hv : r.value.valid = true <;>
              simp [IncrementalEngine.compute,
                MaybeValidDiceValue.into_valid_value, hv,
                guardHeldBeforeUpdates]
  · intro k v epoch env mismatch deps h1 h2
    simp [IncrementalEngine.eval_entry_versioned, h1, h2, hasUpdateComputed,
      hasGuardSuccess, Action.isUpdateComputed, Action.isGuardSuccess]

theorem update_guard_discipline_witness :
    guardHeldBeforeUpdates false (IncrementalEngine.compute 0 1 2
      ⟨.ok ⟨⟨5, true⟩, [], .normal⟩, true, .ok ⟨⟨5, true⟩, [1]⟩⟩).2 = true ∧
    (hasUpdateComputed (IncrementalEngine.eval_entry_versioned 9 1 0
      ⟨.checkDeps ⟨⟨6, true⟩, [1], [7]⟩, [CancellableResult.ok [1]], .normal,
        ⟨.cancelled, false, .cancelled⟩, .ok ⟨⟨6, true⟩, [1, 2]⟩⟩).2 = true ∧
     hasGuardSuccess (IncrementalEngine.eval_entry_versioned 9 1 0
      ⟨.checkDeps ⟨⟨6, true⟩, [1], [7]⟩, [CancellableResult.ok [1]], .normal,
        ⟨.cancelled, false, .cancelled⟩, .ok ⟨⟨6, true⟩, [1, 2]⟩⟩).2 = false) :=
  ⟨update_guard_discipline.1 0 1 2
      ⟨.ok ⟨⟨5, true⟩, [], .normal⟩, true, .ok ⟨⟨5, true⟩, [1]⟩⟩,
    update_guard_discipline.2 9 1 0
      ⟨.checkDeps ⟨⟨6, true⟩, [1], [7]⟩, [CancellableResult.ok [1]], .normal,
        ⟨.cancelled, false, .cancelled⟩, .ok ⟨⟨6, true⟩, [1, 2]⟩⟩
      ⟨⟨6, true⟩, [1], [7]⟩ [7] rfl (by decide)⟩

/-- C6: a task spawned with a `PreviouslyCancelledTask` first awaits the
predecessor's termination; if the predecessor's termination is `Finished`
and it holds a non-cancelled finished value, the new task finishes with
that value without ever invoking the evaluator; if the predecessor was
actually cancelled (cancelled termination, or a cancelled finished value),
the new task proceeds to re-evaluate. -/
theorem spawn_for_key_previously_cancelled (k v epoch : Nat)
    (prev : PreviouslyCancelledTask) (env : EvalEntryEnv) :
    (IncrementalEngine.spawn_for_key k v epoch (some prev) env).2.head? =
      some Action.awaitTermination ∧
    (∀ res, prev.termination = .finished → prev.finishedValue = .ok res →
      (IncrementalEngine.spawn_for_key k v epoch (some prev) env).1 =
        .finished res ∧
      hasEvaluate
        (IncrementalEngine.spawn_for_key k v epoch (some prev) env).2 =
        false) ∧
    ((prev.termination = .cancelled ∨ prev.finishedValue = .cancelled) →
      IncrementalEngine.spawn_for_key k v epoch (some prev) env =
        IncrementalEngine.continue_eval k v epoch env
          [Action.awaitTermination]) := by
  rcases prev with ⟨t, fv⟩
  cases t with
  | finished =>
      cases fv with
      | ok res0 =>
          refine ⟨?_, ?_, ?_⟩
          · simp [IncrementalEngine.spawn_for_key]
          · intro res _ hv
            have : res0 = res := by
              injection hv
            subst this
            simp [IncrementalEngine.spawn_for_key, hasEvaluate,
              Action.isEvaluate]
          · rintro (h | h) <;> simp at h
      | cancelled =>
          refine ⟨?_, ?_, ?_⟩
          · cases heval : (IncrementalEngine.eval_entry_versioned k v epoch
                env).1 with
            | ok p =>
                simp [IncrementalEngine.spawn_for_key,
                  IncrementalEngine.continue_eval, heval]
            | cancelled =>
                simp [IncrementalEngine.spawn_for_key,
                  IncrementalEngine.continue_eval, heval]
          · intro res _ hv
            simp at hv
          · intro _
            simp [IncrementalEngine.spawn_for_key]
  | cancelled =>
      refine ⟨?_, ?_, ?_⟩
      · cases heval : (IncrementalEngine.eval_entry_versioned k v epoch
            env).1 with
        | ok p =>
            simp [IncrementalEngine.spawn_for_key,
              IncrementalEngine.continue_eval, heval]
        | cancelled =>
            simp [IncrementalEngine.spawn_for_key,
              IncrementalEngine.continue_eval, heval]
      · intro res ht _
        simp at ht
      · intro _
        cases fv <;> simp [IncrementalEngine.spawn_for_key]

theorem spawn_for_key_previously_cancelled_witness :
    ((IncrementalEngine.spawn_for_key 3 1 0
        (some ⟨.finished, .ok ⟨⟨8, true⟩, [1]⟩⟩)
        ⟨.compute, [], .normal, ⟨.cancelled, false, .cancelled⟩,
          .cancelled⟩).1 = .finished ⟨⟨8, true⟩, [1]⟩ ∧
      hasEvaluate (IncrementalEngine.spawn_for_key 3 1 0
        (some ⟨.finished, .ok ⟨⟨8, true⟩, [1]⟩⟩)
        ⟨.compute, [], .normal, ⟨.cancelled, false, .cancelled⟩,
          .cancelled⟩).2 = false) ∧
    IncrementalEngine.spawn_for_key 3 1 0
        (some ⟨.cancelled, .ok ⟨⟨8, true⟩, [1]⟩⟩)
        ⟨.compute, [], .normal, ⟨.cancelled, false, .cancelled⟩,
          .cancelled⟩ =
      IncrementalEngine.continue_eval 3 1 0
        ⟨.compute, [], .normal, ⟨.cancelled, false, .cancelled⟩, .cancelled⟩
        [Action.awaitTermination] :=
  ⟨(spawn_for_key_previously_cancelled 3 1 0
      ⟨.finished, .ok ⟨⟨8, true⟩, [1]⟩⟩
      ⟨.compute, [], .normal, ⟨.cancelled, false, .cancelled⟩,
        .cancelled⟩).2.1 ⟨⟨8, true⟩, [1]⟩ rfl rfl,
    (spawn_for_key_previously_cancelled 3 1 0
      ⟨.cancelled, .ok ⟨⟨8, true⟩, [1]⟩⟩
      ⟨.compute, [], .normal, ⟨.cancelled, false, .cancelled⟩,
        .cancelled⟩).2.2 (Or.inl rfl)⟩

/-- C10: `DiceMap::find_cache` is idempotent per key type: if an engine for
the type is already registered it is returned unchanged — the `new` closure
is not invoked and neither the typed map nor the erased list is modified;
otherwise the engine is created once, registered in both, appears in
`engines()`, and every subsequent `find_cache` or `find_cache_opt` for the
same type returns that same instance without creating another. -/
theorem find_cache_idempotent (m : DiceMap) (s : Nat)
    (mk mk2 : Unit → EngineInst) :
    (∀ e, m.find_cache_opt s = some e → m.find_cache s mk = (e, m, false)) ∧
    (m.find_cache_opt s = none →
      (m.find_cache s mk).1 = mk () ∧
      (m.find_cache s mk).2.2 = true ∧
      mk () ∈ ((m.find_cache s mk).2.1).engines ∧
      ((m.find_cache s mk).2.1).find_cache_opt s = some (mk ()) ∧
      ((m.find_cache s mk).2.1).find_cache s mk2 =
        (mk (), (m.find_cache s mk).2.1, false)) := by
  constructor
  · intro e he
    unfold DiceMap.find_cache_opt at he
    cases hf : m.typed.find? (fun p => p.1 == s) with
    | none => rw [hf] at he; simp at he
    | some p =>
        rw [hf] at he
        simp at he
        simp [DiceMap.find_cache, hf, he]
  · intro he
    unfold DiceMap.find_cache_opt at he
    have hf : m.typed.find? (fun p => p.1 == s) = none := by
      cases hf : m.typed.find? (fun p => p.1 == s) with
      | none => rfl
      | some p => rw [hf] at he; simp at he
    have hfind : (m.typed ++ [(s, mk ())]).find? (fun p => p.1 == s) =
        some (s, mk ()) := by
      rw [List.find?_append, hf]
      simp [List.find?]
    refine ⟨?_, ?_, ?_, ?_, ?_⟩
    · simp [DiceMap.find_cache, hf]
    · simp [DiceMap.find_cache, hf]
    · simp [DiceMap.find_cache, hf, DiceMap.engines]
    · simp [DiceMap.find_cache, DiceMap.find_cache_opt, hf, hfind]
    · simp [DiceMap.find_cache, hf, hfind]

theorem find_cache_idempotent_witness :
    ((DiceMap.mk [(0, ⟨0, 1⟩)] [⟨0, 1⟩]).find_cache 0 (fun _ => ⟨0, 2⟩) =
      (⟨0, 1⟩, DiceMap.mk [(0, ⟨0, 1⟩)] [⟨0, 1⟩], false)) ∧
    (((DiceMap.new.find_cache 5 (fun _ => ⟨5, 3⟩)).1 = (⟨5, 3⟩ : EngineInst)) ∧
      ((DiceMap.new.find_cache 5 (fun _ => ⟨5, 3⟩)).2.2 = true) ∧
      (⟨5, 3⟩ : EngineInst) ∈
        ((DiceMap.new.find_cache 5 (fun _ => ⟨5, 3⟩)).2.1).engines ∧
      ((DiceMap.new.find_cache 5 (fun _ => ⟨5, 3⟩)).2.1).find_cache_opt 5 =
        some ⟨5, 3⟩ ∧
      ((DiceMap.new.find_cache 5 (fun _ => ⟨5, 3⟩)).2.1).find_cache 5
          (fun _ => ⟨5, 4⟩) =
        (⟨5, 3⟩, (DiceMap.new.find_cache 5 (fun _ => ⟨5, 3⟩)).2.1, false)) :=
  ⟨(find_cache_idempotent (DiceMap.mk [(0, ⟨0, 1⟩)] [⟨0, 1⟩]) 0
      (fun _ => ⟨0, 2⟩) (fun _ => ⟨0, 2⟩)).1 ⟨0, 1⟩ rfl,
    (find_cache_idempotent DiceMap.new 5 (fun _ => ⟨5, 3⟩)
      (fun _ => ⟨5, 4⟩)).2 rfl⟩

end Dice
